import Mathlib

/-!
# Shallow embedding of the Task Store of `todo_app.py`

The single source file defines a class `TodoApp` holding an in-memory list
of task dictionaries (`self.tasks`) and a next-identifier counter
(`self.next_id`), persisted to a JSON file after every mutation.

Modelling choices:
* A task dictionary becomes the structure `Task`; the always-present keys
  become fields.  Python integers become `Int`, the `completed_at` value
  (a timestamp string or `None`) becomes `Option String`, timestamps are
  kept as opaque strings.
* Python's `str.strip()` and `str.lower()` are modelled by the executable
  `pyStrip` and `pyLower` on the character list of a string.
* `datetime.now().isoformat()` is an external input: operations that read
  the clock take the current timestamp as a parameter `now`.
* `save_tasks` performs file I/O; whether the write succeeds is an
  external outcome, passed to each mutating operation as the parameter
  `saveOk`.  The exception text printed on failure is abstracted into the
  fixed placeholder `saveErrorMsg`.
* Every `print` of an operation is collected in the `out` field of its
  result, and `saveAttempted` records whether `save_tasks` was called,
  so that "no save occurs" is directly expressible.
* Python mutates the dictionary returned by `find_task_by_id`, i.e. the
  first list element with the given id; `updateFirst` applies a function
  to that first match and is used to model each in-place mutation.
-/

namespace Todo

/-- Python `str.strip()`: drop leading and trailing whitespace. -/
def pyStrip (s : String) : String :=
  ⟨((s.data.dropWhile Char.isWhitespace).reverse.dropWhile
      Char.isWhitespace).reverse⟩

/-- Python `str.lower()` (ASCII case folding, as used for the `'y'`
comparison). -/
def pyLower (s : String) : String :=
  ⟨s.data.map Char.toLower⟩

structure Task where
  id : Int
  title : String
  description : String
  completed : Bool
  created_at : String
  completed_at : Option String
deriving Repr, DecidableEq

structure TodoApp where
  tasks : List Task
  next_id : Int
deriving Repr, DecidableEq

/-- Result of one Task Store operation: the returned boolean, the store
state after the call, the lines printed, and whether `save_tasks` ran. -/
structure OpResult where
  ok : Bool
  store : TodoApp
  out : List String
  saveAttempted : Bool
deriving Repr, DecidableEq

/-- `_get_next_id`: `1` on an empty collection, else `max(ids) + 1`. -/
def _get_next_id (tasks : List Task) : Int :=
  match tasks with
  | [] => 1
  | t :: ts => ts.foldl (fun m x => max m x.id) t.id + 1

/-- `save_tasks`: the write outcome is the external parameter. -/
def save_tasks (saveOk : Bool) : Bool := saveOk

def saveErrorMsg : String := "Error saving tasks: <exception>"

/-- `find_task_by_id`: first task in the list with this id, if any. -/
def find_task_by_id (s : TodoApp) (task_id : Int) : Option Task :=
  s.tasks.find? (fun t => t.id == task_id)

def notFoundMsg (task_id : Int) : String :=
  "❌ Task with ID " ++ toString task_id ++ " not found!"

def emptyTitleMsg : String := "Error: Task title cannot be empty!"

def deletionCancelledMsg : String := "❌ Task deletion cancelled."

/-- Apply `f` to the first element satisfying `p` (the element Python's
`find_task_by_id` returns a reference to and the caller mutates). -/
def updateFirst (p : Task → Bool) (f : Task → Task) : List Task → List Task
  | [] => []
  | t :: ts => if p t then f t :: ts else t :: updateFirst p f ts

/-- `add_task(title, description)`. -/
def add_task (s : TodoApp) (title description : String) (now : String)
    (saveOk : Bool) : OpResult :=
  if pyStrip title = "" then
    { ok := false, store := s, out := [emptyTitleMsg], saveAttempted := false }
  else
    let task : Task :=
      { id := s.next_id, title := pyStrip title,
        description := pyStrip description,
        completed := false, created_at := now, completed_at := none }
    let s1 : TodoApp := { tasks := s.tasks ++ [task], next_id := s.next_id + 1 }
    if save_tasks saveOk then
      { ok := true, store := s1,
        out := ["✅ Task '" ++ title ++ "' added successfully! (ID: " ++
                toString task.id ++ ")"],
        saveAttempted := true }
    else
      -- `self.tasks.pop()` and `self.next_id -= 1`
      { ok := false,
        store := { tasks := s1.tasks.dropLast, next_id := s1.next_id - 1 },
        out := [saveErrorMsg], saveAttempted := true }

/-- The field updates `update_task` applies to the found task. -/
def applyUpdates (newTitle newDescription : Option String) (t : Task) : Task :=
  let t1 := match newTitle with
    | some x => { t with title := pyStrip x }
    | none => t
  match newDescription with
  | some d => { t1 with description := pyStrip d }
  | none => t1

/-- `update_task(task_id, title, description)`. -/
def update_task (s : TodoApp) (task_id : Int)
    (newTitle newDescription : Option String) (saveOk : Bool) : OpResult :=
  match find_task_by_id s task_id with
  | none =>
    { ok := false, store := s, out := [notFoundMsg task_id], saveAttempted := false }
  | some _task =>
    if (match newTitle with | some x => pyStrip x == "" | none => false) then
      { ok := false, store := s, out := [emptyTitleMsg], saveAttempted := false }
    else
      let s1 : TodoApp :=
        { s with tasks := updateFirst (fun t => t.id == task_id)
                            (applyUpdates newTitle newDescription) s.tasks }
      if save_tasks saveOk then
        { ok := true, store := s1,
          out := ["✅ Task " ++ toString task_id ++ " updated successfully!"],
          saveAttempted := true }
      else
        { ok := false, store := s1, out := [saveErrorMsg], saveAttempted := true }

/-- `delete_task(task_id)`; `confirm` is the caller's answer to the
confirmation prompt, lowercased before the `'y'` comparison as in the
source. -/
def delete_task (s : TodoApp) (task_id : Int) (confirm : String)
    (saveOk : Bool) : OpResult :=
  match find_task_by_id s task_id with
  | none =>
    { ok := false, store := s, out := [notFoundMsg task_id], saveAttempted := false }
  | some task =>
    if pyLower confirm ≠ "y" then
      { ok := false, store := s, out := [deletionCancelledMsg], saveAttempted := false }
    else
      let s1 : TodoApp :=
        { s with tasks := s.tasks.filter (fun t => ¬(t.id == task_id)) }
      if save_tasks saveOk then
        { ok := true, store := s1,
          out := ["🗑️ Task '" ++ task.title ++ "' deleted successfully!"],
          saveAttempted := true }
      else
        { ok := false, store := s1, out := [saveErrorMsg], saveAttempted := true }

def setCompleted (now : String) (t : Task) : Task :=
  { t with completed := true, completed_at := some now }

def clearCompleted (t : Task) : Task :=
  { t with completed := false, completed_at := none }

/-- `complete_task(task_id)`. -/
def complete_task (s : TodoApp) (task_id : Int) (now : String)
    (saveOk : Bool) : OpResult :=
  match find_task_by_id s task_id with
  | none =>
    { ok := false, store := s, out := [notFoundMsg task_id], saveAttempted := false }
  | some task =>
    if task.completed then
      { ok := true, store := s,
        out := ["ℹ️ Task '" ++ task.title ++ "' is already completed!"],
        saveAttempted := false }
    else
      let s1 : TodoApp :=
        { s with tasks := updateFirst (fun t => t.id == task_id)
                            (setCompleted now) s.tasks }
      if save_tasks saveOk then
        { ok := true, store := s1,
          out := ["🎉 Task '" ++ task.title ++ "' marked as completed!"],
          saveAttempted := true }
      else
        { ok := false, store := s1, out := [saveErrorMsg], saveAttempted := true }

/-- `uncomplete_task(task_id)`. -/
def uncomplete_task (s : TodoApp) (task_id : Int) (saveOk : Bool) : OpResult :=
  match find_task_by_id s task_id with
  | none =>
    { ok := false, store := s, out := [notFoundMsg task_id], saveAttempted := false }
  | some task =>
    if ¬task.completed then
      { ok := true, store := s,
        out := ["ℹ️ Task '" ++ task.title ++ "' is already pending!"],
        saveAttempted := false }
    else
      let s1 : TodoApp :=
        { s with tasks := updateFirst (fun t => t.id == task_id)
                            clearCompleted s.tasks }
      if save_tasks saveOk then
        { ok := true, store := s1,
          out := ["🔄 Task '" ++ task.title ++ "' marked as pending!"],
          saveAttempted := true }
      else
        { ok := false, store := s1, out := [saveErrorMsg], saveAttempted := true }

structure Stats where
  total : Nat
  completed : Nat
  pending : Nat
deriving Repr, DecidableEq

/-- `get_task_stats()`: purely derived counts, the store is not touched. -/
def get_task_stats (s : TodoApp) : Stats :=
  let total := s.tasks.length
  let completed := s.tasks.countP (fun t => t.completed)
  { total := total, completed := completed, pending := total - completed }

/-- Values of Python's `json` module, as produced by `json.load`. -/
inductive Json where
  | null : Json
  | bool : Bool → Json
  | num : Int → Json
  | str : String → Json
  | arr : List Json → Json
  | obj : List (String × Json) → Json

/-- `load_tasks()`: `fileExists` is the `os.path.exists` outcome and
`parsed` the outcome of `json.load` on the file contents.  Whatever value
parses is returned unvalidated; a parse error or a missing file yields the
empty list. -/
def load_tasks (fileExists : Bool) (parsed : Except String Json) :
    Json × List String :=
  if fileExists then
    match parsed with
    | Except.ok v => (v, [])
    | Except.error e => (Json.arr [], ["Error loading tasks: " ++ e])
  else
    (Json.arr [], [])

/-- One call of `add_task`, with its external inputs: the two text
arguments, the clock reading, and the save outcome. -/
structure AddOp where
  title : String
  description : String
  now : String
  saveOk : Bool
deriving Repr, DecidableEq

/-- Run a sequence of `add_task` calls, threading the store. -/
def addSeq (s : TodoApp) : List AddOp → TodoApp
  | [] => s
  | op :: ops => addSeq (add_task s op.title op.description op.now op.saveOk).store ops

/-- The data-model invariant `completed == false ⇔ completed_at is absent`. -/
def ccInv (l : List Task) : Prop :=
  ∀ t ∈ l, (t.completed = false ↔ t.completed_at = none)

/-- Relation between a task before and after the Complete-then-Uncomplete
round trip: identity, text and creation fields are unchanged, the task
with the targeted id ends pending with no completion timestamp, and every
other task is untouched. -/
def restoredRel (task_id : Int) (t t2 : Task) : Prop :=
  t2.id = t.id ∧ t2.title = t.title ∧ t2.description = t.description ∧
  t2.created_at = t.created_at ∧
  (t.id = task_id → t2.completed = false ∧ t2.completed_at = none) ∧
  (t.id ≠ task_id → t2 = t)

-- sanity checks: the embedding evaluates on concrete runs
example : pyStrip "  a " = "a" := by decide
example : pyLower "N" ≠ "y" := by decide
example : (add_task ⟨[], 1⟩ " a " "d" "t0" true).store.tasks =
    [⟨1, "a", "d", false, "t0", none⟩] := by decide
example : (add_task ⟨[], 1⟩ "a" "d" "t0" false).store = ⟨[], 1⟩ := by decide
example : (add_task ⟨[], 1⟩ "  " "d" "t0" true).store = ⟨[], 1⟩ := by decide
example : (delete_task ⟨[⟨1, "a", "", false, "t", none⟩], 2⟩ 1 "n" true).store
    = ⟨[⟨1, "a", "", false, "t", none⟩], 2⟩ := by decide
example : (delete_task ⟨[⟨1, "a", "", false, "t", none⟩], 2⟩ 1 "Y" true).store
    = ⟨[], 2⟩ := by decide
example : (complete_task ⟨[⟨1, "a", "", false, "t", none⟩], 2⟩ 1 "t1" true).store
    = ⟨[⟨1, "a", "", true, "t", some "t1"⟩], 2⟩ := by decide

/-! ## Helper lemmas -/

theorem cancelMsg_ne_notFoundMsg (task_id : Int) :
    deletionCancelledMsg ≠ notFoundMsg task_id := by
  intro h
  have h2 : deletionCancelledMsg.data[7]? = (notFoundMsg task_id).data[7]? := by
    rw [h]
  rw [notFoundMsg, String.data_append, String.data_append,
    List.append_assoc, List.getElem?_append_left (by decide)] at h2
  exact absurd h2 (by decide)

/-! ## C1, C6, C9, C10 -/

/-- C1: if `add_task` is called with a title that is non-empty after
trimming and the save fails, the appended task is removed and the counter
decremented: the call reports failure and returns the store exactly as it
was before the call. -/
theorem add_task_save_failure_rolls_back (s : TodoApp)
    (title description now : String) (h : pyStrip title ≠ "") :
    add_task s title description now false =
      { ok := false, store := s, out := [saveErrorMsg], saveAttempted := true } := by
  cases s with
  | mk tasks next_id =>
    simp [add_task, h, save_tasks, List.dropLast_concat]

theorem add_task_save_failure_rolls_back_witness :
    pyStrip "Buy milk" ≠ "" ∧
      add_task ⟨[⟨1, "a", "", false, "t", none⟩], 2⟩ "Buy milk" "d" "t1" false =
        { ok := false, store := ⟨[⟨1, "a", "", false, "t", none⟩], 2⟩,
          out := [saveErrorMsg], saveAttempted := true } :=
  ⟨by decide,
    add_task_save_failure_rolls_back ⟨[⟨1, "a", "", false, "t", none⟩], 2⟩
      "Buy milk" "d" "t1" (by decide)⟩

/-- C6: `add_task` with a title that is empty after trimming fails before
any mutation: the store (collection and counter) is returned unchanged and
no save is attempted. -/
theorem add_task_empty_title_no_mutation (s : TodoApp)
    (title description now : String) (saveOk : Bool)
    (h : pyStrip title = "") :
    add_task s title description now saveOk =
      { ok := false, store := s, out := [emptyTitleMsg], saveAttempted := false } := by
  simp [add_task, h]

theorem add_task_empty_title_no_mutation_witness :
    pyStrip "   " = "" ∧
      add_task ⟨[⟨1, "a", "", false, "t", none⟩], 2⟩ "   " "d" "t1" true =
        { ok := false, store := ⟨[⟨1, "a", "", false, "t", none⟩], 2⟩,
          out := [emptyTitleMsg], saveAttempted := false } :=
  ⟨by decide,
    add_task_empty_title_no_mutation ⟨[⟨1, "a", "", false, "t", none⟩], 2⟩
      "   " "d" "t1" true (by decide)⟩

/-- C9: `get_task_stats` satisfies `total = completed + pending`, with
`completed` the number of tasks marked completed and `total` the
collection size; it is a pure function of the store, which it does not
change. -/
theorem get_task_stats_consistent (s : TodoApp) :
    (get_task_stats s).total = (get_task_stats s).completed + (get_task_stats s).pending ∧
    (get_task_stats s).completed = s.tasks.countP (fun t => t.completed) ∧
    (get_task_stats s).total = s.tasks.length := by
  refine ⟨?_, rfl, rfl⟩
  have h := List.countP_le_length (fun t => t.completed) (l := s.tasks)
  simp only [get_task_stats]
  omega

/-- C10: `load_tasks` validates nothing.  Whatever value the file parses
to — any JSON value at all, with no check of ids, titles or completion
fields — is returned as the task collection unchanged; only a parse error
or a missing file yields the empty collection. -/
theorem load_tasks_no_validation :
    (∀ v : Json, (load_tasks true (Except.ok v)).1 = v) ∧
    (∀ e : String, (load_tasks true (Except.error e)).1 = Json.arr []) ∧
    (∀ p : Except String Json, (load_tasks false p).1 = Json.arr []) :=
  ⟨fun _ => rfl, fun _ => rfl, fun p => by cases p <;> rfl⟩

/-! ## C3 -/

/-- C3: on a store containing the id, `delete_task` with a negative
confirmation cancels: the returned boolean is `false`, the store is
unchanged, no save is attempted, and the printed report is the dedicated
cancellation line, distinct from the not-found report and from the
save-failure report. -/
theorem delete_task_negative_confirmation_cancels (s : TodoApp) (task_id : Int)
    (confirm : String) (saveOk : Bool)
    (hmem : ∃ t ∈ s.tasks, t.id = task_id)
    (hconf : pyLower confirm ≠ "y") :
    delete_task s task_id confirm saveOk =
      { ok := false, store := s, out := [deletionCancelledMsg], saveAttempted := false } ∧
    deletionCancelledMsg ≠ notFoundMsg task_id ∧
    deletionCancelledMsg ≠ saveErrorMsg := by
  refine ⟨?_, cancelMsg_ne_notFoundMsg task_id, by decide⟩
  have hsome : (find_task_by_id s task_id).isSome := by
    rw [find_task_by_id, List.find?_isSome]
    obtain ⟨t, ht, hid⟩ := hmem
    exact ⟨t, ht, by simp [hid]⟩
  obtain ⟨t0, hfind⟩ := Option.isSome_iff_exists.mp hsome
  simp [delete_task, hfind, hconf]

theorem delete_task_negative_confirmation_cancels_witness :
    (∃ t ∈ ([⟨1, "a", "", false, "t", none⟩] : List Task), t.id = 1) ∧
    pyLower "N" ≠ "y" ∧
    (delete_task ⟨[⟨1, "a", "", false, "t", none⟩], 2⟩ 1 "N" true =
      { ok := false, store := ⟨[⟨1, "a", "", false, "t", none⟩], 2⟩,
        out := [deletionCancelledMsg], saveAttempted := false } ∧
     deletionCancelledMsg ≠ notFoundMsg 1 ∧
     deletionCancelledMsg ≠ saveErrorMsg) :=
  ⟨by decide, by decide,
    delete_task_negative_confirmation_cancels ⟨[⟨1, "a", "", false, "t", none⟩], 2⟩
      1 "N" true (by decide) (by decide)⟩

/-! ## find? / updateFirst lemmas, C7 -/

theorem find?_updateFirst_same (p : Task → Bool) (f : Task → Task)
    (hpf : ∀ t, p t = true → p (f t) = true) (l : List Task) :
    (updateFirst p f l).find? p = (l.find? p).map f := by
  induction l with
  | nil => rfl
  | cons h tl ih =>
    cases hph : p h with
    | true =>
      simp only [updateFirst, hph, if_pos]
      rw [List.find?_cons_of_pos _ (hpf h hph), List.find?_cons_of_pos _ hph]
      rfl
    | false =>
      simp only [updateFirst, hph, Bool.false_eq_true, if_neg, not_false_iff]
      rw [List.find?_cons_of_neg _ (by simp [hph]), List.find?_cons_of_neg _ (by simp [hph]), ih]

theorem updateFirst_updateFirst (p : Task → Bool) (f g : Task → Task)
    (hpf : ∀ t, p t = true → p (f t) = true) (l : List Task) :
    updateFirst p g (updateFirst p f l) = updateFirst p (fun t => g (f t)) l := by
  induction l with
  | nil => rfl
  | cons h tl ih =>
    cases hph : p h with
    | true => simp only [updateFirst, hph, if_pos, hpf h hph]
    | false =>
      simp only [updateFirst, hph, Bool.false_eq_true, if_neg, not_false_iff, ih]

/-- C7: Complete is idempotent.  On a store containing the id, after one
`complete_task` call the second call is a successful no-op: it leaves the
store exactly as after the first call, returns `true`, and attempts no
save.  This holds whatever the save outcomes are, since a failed save
after completing does not roll the mutation back. -/
theorem complete_task_idempotent (s : TodoApp) (task_id : Int)
    (now1 now2 : String) (saveOk1 saveOk2 : Bool)
    (hmem : ∃ t ∈ s.tasks, t.id = task_id) :
    (complete_task (complete_task s task_id now1 saveOk1).store task_id now2 saveOk2).store
        = (complete_task s task_id now1 saveOk1).store ∧
    (complete_task (complete_task s task_id now1 saveOk1).store task_id now2 saveOk2).ok
        = true ∧
    (complete_task (complete_task s task_id now1 saveOk1).store task_id now2 saveOk2).saveAttempted
        = false := by
  have hsome : (find_task_by_id s task_id).isSome := by
    rw [find_task_by_id, List.find?_isSome]
    obtain ⟨t, ht, hid⟩ := hmem
    exact ⟨t, ht, by simp [hid]⟩
  obtain ⟨t0, hfind⟩ := Option.isSome_iff_exists.mp hsome
  cases hc : t0.completed with
  | true =>
    have h1 : (complete_task s task_id now1 saveOk1).store = s := by
      simp [complete_task, hfind, hc]
    rw [h1]
    simp [complete_task, hfind, hc]
  | false =>
    have h1 : (complete_task s task_id now1 saveOk1).store =
        { s with tasks := updateFirst (fun t => t.id == task_id)
                            (setCompleted now1) s.tasks } := by
      cases saveOk1 <;> simp [complete_task, hfind, hc, save_tasks]
    have hfind2 : find_task_by_id (complete_task s task_id now1 saveOk1).store task_id
        = some (setCompleted now1 t0) := by
      rw [h1, find_task_by_id]
      show (updateFirst (fun t => t.id == task_id) (setCompleted now1) s.tasks).find?
            (fun t => t.id == task_id) = _
      rw [find?_updateFirst_same (fun t => t.id == task_id) (setCompleted now1)
        (fun t ht => ht) s.tasks]
      rw [find_task_by_id] at hfind
      rw [hfind]
      rfl
    generalize hgen : (complete_task s task_id now1 saveOk1).store = s1 at hfind2 ⊢
    simp [complete_task, hfind2, setCompleted]

theorem complete_task_idempotent_witness :
    (∃ t ∈ ([⟨1, "a", "", false, "t", none⟩] : List Task), t.id = 1) ∧
    ((complete_task (complete_task ⟨[⟨1, "a", "", false, "t", none⟩], 2⟩ 1 "t1" true).store
        1 "t2" true).store
      = (complete_task ⟨[⟨1, "a", "", false, "t", none⟩], 2⟩ 1 "t1" true).store ∧
     (complete_task (complete_task ⟨[⟨1, "a", "", false, "t", none⟩], 2⟩ 1 "t1" true).store
        1 "t2" true).ok = true ∧
     (complete_task (complete_task ⟨[⟨1, "a", "", false, "t", none⟩], 2⟩ 1 "t1" true).store
        1 "t2" true).saveAttempted = false) :=
  ⟨by decide,
    complete_task_idempotent ⟨[⟨1, "a", "", false, "t", none⟩], 2⟩ 1 "t1" "t2"
      true true (by decide)⟩

/-! ## C5 -/

/-- C5: on a store with unique ids containing the task `t0` with the given
id, `delete_task` with a positive confirmation removes exactly `t0`: the
collection splits as `l₁ ++ t0 :: l₂` with no other task carrying the id,
and the store after the call holds `l₁ ++ l₂` — everything else present,
in the same relative order, untouched — with the counter unchanged. -/
theorem delete_task_removes_exactly_one (s : TodoApp) (task_id : Int)
    (confirm : String) (saveOk : Bool) (t0 : Task)
    (hnodup : (s.tasks.map Task.id).Nodup)
    (hmem : t0 ∈ s.tasks) (hid : t0.id = task_id)
    (hconf : pyLower confirm = "y") :
    ∃ l₁ l₂, s.tasks = l₁ ++ t0 :: l₂ ∧
      (delete_task s task_id confirm saveOk).store.tasks = l₁ ++ l₂ ∧
      (∀ t ∈ l₁, t.id ≠ task_id) ∧ (∀ t ∈ l₂, t.id ≠ task_id) ∧
      (delete_task s task_id confirm saveOk).store.next_id = s.next_id := by
  obtain ⟨l₁, l₂, hdecomp⟩ := List.append_of_mem hmem
  have hnd := hnodup
  rw [hdecomp, List.map_append, List.map_cons, List.nodup_append] at hnd
  obtain ⟨-, hnd2, hdisj⟩ := hnd
  have hl₁ : ∀ t ∈ l₁, t.id ≠ task_id := by
    intro t ht heq
    exact hdisj (List.mem_map_of_mem Task.id ht) (by simp [heq, hid.symm])
  have hl₂ : ∀ t ∈ l₂, t.id ≠ task_id := by
    intro t ht heq
    rw [List.nodup_cons] at hnd2
    exact hnd2.1 (by rw [hid, ← heq]; exact List.mem_map_of_mem Task.id ht)
  have hsome : (find_task_by_id s task_id).isSome := by
    rw [find_task_by_id, List.find?_isSome]
    exact ⟨t0, hmem, by simp [hid]⟩
  obtain ⟨tf, hfind⟩ := Option.isSome_iff_exists.mp hsome
  have hstore : (delete_task s task_id confirm saveOk).store =
      { s with tasks := s.tasks.filter (fun t => ¬(t.id == task_id)) } := by
    cases saveOk <;> simp [delete_task, hfind, hconf, save_tasks]
  refine ⟨l₁, l₂, hdecomp, ?_, hl₁, hl₂, by rw [hstore]⟩
  rw [hstore]
  show (s.tasks.filter (fun t => ¬(t.id == task_id))) = l₁ ++ l₂
  rw [hdecomp, List.filter_append, List.filter_cons,
    List.filter_eq_self.mpr (fun a ha => by simp [hl₁ a ha]),
    List.filter_eq_self.mpr (fun a ha => by simp [hl₂ a ha]),
    if_neg (by simp [hid])]

theorem delete_task_removes_exactly_one_witness :
    (([⟨1, "a", "", false, "t", none⟩, ⟨2, "b", "", true, "t", some "t2"⟩]
        |>.map Task.id).Nodup) ∧
    (⟨1, "a", "", false, "t", none⟩ : Task) ∈
      ([⟨1, "a", "", false, "t", none⟩, ⟨2, "b", "", true, "t", some "t2"⟩] : List Task) ∧
    pyLower "Y" = "y" ∧
    (∃ l₁ l₂,
      ([⟨1, "a", "", false, "t", none⟩, ⟨2, "b", "", true, "t", some "t2"⟩] : List Task)
        = l₁ ++ (⟨1, "a", "", false, "t", none⟩ : Task) :: l₂ ∧
      (delete_task ⟨[⟨1, "a", "", false, "t", none⟩, ⟨2, "b", "", true, "t", some "t2"⟩], 3⟩
        1 "Y" true).store.tasks = l₁ ++ l₂ ∧
      (∀ t ∈ l₁, t.id ≠ 1) ∧ (∀ t ∈ l₂, t.id ≠ 1) ∧
      (delete_task ⟨[⟨1, "a", "", false, "t", none⟩, ⟨2, "b", "", true, "t", some "t2"⟩], 3⟩
        1 "Y" true).store.next_id = 3) :=
  ⟨by decide, by decide, by decide,
    delete_task_removes_exactly_one
      ⟨[⟨1, "a", "", false, "t", none⟩, ⟨2, "b", "", true, "t", some "t2"⟩], 3⟩
      1 "Y" true ⟨1, "a", "", false, "t", none⟩ (by decide) (by decide) (by decide)
      (by decide)⟩

/-! ## C4 -/

theorem forall2_restoredRel_updateFirst_clear (task_id : Int) (l : List Task)
    (hnodup : (l.map Task.id).Nodup) :
    List.Forall₂ (restoredRel task_id) l
      (updateFirst (fun t => t.id == task_id) clearCompleted l) := by
  induction l with
  | nil => constructor
  | cons h tl ih =>
    rw [List.map_cons, List.nodup_cons] at hnodup
    cases hph : (h.id == task_id) with
    | true =>
      have hidh : h.id = task_id := by simpa using hph
      rw [updateFirst, if_pos hph]
      constructor
      · exact ⟨rfl, rfl, rfl, rfl, fun _ => ⟨rfl, rfl⟩, fun hne => absurd hidh hne⟩
      · refine List.forall₂_same.mpr (fun t ht => ?_)
        have hne : t.id ≠ task_id := by
          intro heq
          exact hnodup.1 (by rw [hidh, ← heq]; exact List.mem_map_of_mem Task.id ht)
        exact ⟨rfl, rfl, rfl, rfl, fun heq => absurd heq hne, fun _ => rfl⟩
    | false =>
      have hne : h.id ≠ task_id := by simpa using hph
      rw [updateFirst, if_neg (by simp [hph])]
      exact List.Forall₂.cons
        ⟨rfl, rfl, rfl, rfl, fun heq => absurd heq hne, fun _ => rfl⟩
        (ih hnodup.2)

/-- C4: on a store with unique ids containing the id, `complete_task`
followed by `uncomplete_task` (both saves succeeding) leaves the targeted
task pending with no completion timestamp while its id, title, description
and creation timestamp — and every other task, and the counter — are
exactly as before. -/
theorem complete_then_uncomplete_restores (s : TodoApp) (task_id : Int)
    (now : String)
    (hnodup : (s.tasks.map Task.id).Nodup)
    (hmem : ∃ t ∈ s.tasks, t.id = task_id) :
    List.Forall₂ (restoredRel task_id) s.tasks
      (uncomplete_task (complete_task s task_id now true).store task_id true).store.tasks ∧
    (uncomplete_task (complete_task s task_id now true).store task_id true).store.next_id
      = s.next_id := by
  have hsome : (find_task_by_id s task_id).isSome := by
    rw [find_task_by_id, List.find?_isSome]
    obtain ⟨t, ht, hid⟩ := hmem
    exact ⟨t, ht, by simp [hid]⟩
  obtain ⟨t0, hfind⟩ := Option.isSome_iff_exists.mp hsome
  have hkey : (uncomplete_task (complete_task s task_id now true).store task_id true).store
      = { s with tasks := updateFirst (fun t => t.id == task_id) clearCompleted s.tasks } := by
    cases hc : t0.completed with
    | true =>
      have h1 : (complete_task s task_id now true).store = s := by
        simp [complete_task, hfind, hc]
      rw [h1]
      simp [uncomplete_task, hfind, hc, save_tasks]
    | false =>
      have h1 : (complete_task s task_id now true).store =
          { s with tasks := updateFirst (fun t => t.id == task_id)
                              (setCompleted now) s.tasks } := by
        simp [complete_task, hfind, hc, save_tasks]
      have hfind2 : find_task_by_id (complete_task s task_id now true).store task_id
          = some (setCompleted now t0) := by
        rw [h1, find_task_by_id]
        show (updateFirst (fun t => t.id == task_id) (setCompleted now) s.tasks).find?
              (fun t => t.id == task_id) = _
        rw [find?_updateFirst_same (fun t => t.id == task_id) (setCompleted now)
          (fun t ht => ht) s.tasks]
        rw [find_task_by_id] at hfind
        rw [hfind]
        rfl
      have h2 : (uncomplete_task (complete_task s task_id now true).store task_id true).store
          = { (complete_task s task_id now true).store with
              tasks := updateFirst (fun t => t.id == task_id) clearCompleted
                         (complete_task s task_id now true).store.tasks } := by
        generalize (complete_task s task_id now true).store = s1 at hfind2 ⊢
        simp [uncomplete_task, hfind2, setCompleted, save_tasks]
      rw [h2, h1]
      show (⟨updateFirst _ clearCompleted (updateFirst _ (setCompleted now) s.tasks),
              s.next_id⟩ : TodoApp) = _
      rw [updateFirst_updateFirst (fun t => t.id == task_id) (setCompleted now)
        clearCompleted (fun t ht => ht) s.tasks]
      rfl
  rw [hkey]
  exact ⟨forall2_restoredRel_updateFirst_clear task_id s.tasks hnodup, rfl⟩

theorem complete_then_uncomplete_restores_witness :
    (([⟨1, "a", "da", false, "t", none⟩, ⟨2, "b", "", true, "t", some "t2"⟩]
        |>.map Task.id).Nodup) ∧
    (∃ t ∈ ([⟨1, "a", "da", false, "t", none⟩, ⟨2, "b", "", true, "t", some "t2"⟩] : List Task),
      t.id = 1) ∧
    (List.Forall₂ (restoredRel 1)
      [⟨1, "a", "da", false, "t", none⟩, ⟨2, "b", "", true, "t", some "t2"⟩]
      (uncomplete_task
        (complete_task ⟨[⟨1, "a", "da", false, "t", none⟩, ⟨2, "b", "", true, "t", some "t2"⟩], 3⟩
          1 "t9" true).store 1 true).store.tasks ∧
     (uncomplete_task
        (complete_task ⟨[⟨1, "a", "da", false, "t", none⟩, ⟨2, "b", "", true, "t", some "t2"⟩], 3⟩
          1 "t9" true).store 1 true).store.next_id = 3) :=
  ⟨by decide, by decide,
    complete_then_uncomplete_restores
      ⟨[⟨1, "a", "da", false, "t", none⟩, ⟨2, "b", "", true, "t", some "t2"⟩], 3⟩
      1 "t9" (by decide) (by decide)⟩

/-! ## C8 -/

theorem mem_updateFirst (p : Task → Bool) (f : Task → Task) (l : List Task)
    (t : Task) (ht : t ∈ updateFirst p f l) : t ∈ l ∨ ∃ u ∈ l, t = f u := by
  induction l with
  | nil => simp [updateFirst] at ht
  | cons h tl ih =>
    rw [updateFirst] at ht
    by_cases hp : p h
    · rw [if_pos hp] at ht
      rcases List.mem_cons.mp ht with h1 | h1
      · exact Or.inr ⟨h, List.mem_cons_self h tl, h1⟩
      · exact Or.inl (List.mem_cons_of_mem h h1)
    · rw [if_neg hp] at ht
      rcases List.mem_cons.mp ht with h1 | h1
      · exact Or.inl (h1 ▸ List.mem_cons_self h tl)
      · rcases ih h1 with h2 | ⟨u, hu, h2⟩
        · exact Or.inl (List.mem_cons_of_mem h h2)
        · exact Or.inr ⟨u, List.mem_cons_of_mem h hu, h2⟩

theorem applyUpdates_completed (newTitle newDescription : Option String)
    (t : Task) : (applyUpdates newTitle newDescription t).completed = t.completed := by
  cases newTitle <;> cases newDescription <;> rfl

theorem applyUpdates_completed_at (newTitle newDescription : Option String)
    (t : Task) : (applyUpdates newTitle newDescription t).completed_at = t.completed_at := by
  cases newTitle <;> cases newDescription <;> rfl

/-- C8: each of the five mutating operations preserves the invariant
`completed = false ⇔ completed_at is absent` across the whole collection,
for every choice of arguments, clock reading and save outcome. -/
theorem mutations_preserve_completion_invariant (s : TodoApp) (h : ccInv s.tasks) :
    (∀ title description now saveOk,
      ccInv (add_task s title description now saveOk).store.tasks) ∧
    (∀ task_id newTitle newDescription saveOk,
      ccInv (update_task s task_id newTitle newDescription saveOk).store.tasks) ∧
    (∀ task_id now saveOk, ccInv (complete_task s task_id now saveOk).store.tasks) ∧
    (∀ task_id saveOk, ccInv (uncomplete_task s task_id saveOk).store.tasks) ∧
    (∀ task_id confirm saveOk,
      ccInv (delete_task s task_id confirm saveOk).store.tasks) := by
  refine ⟨?_, ?_, ?_, ?_, ?_⟩
  · -- add_task
    intro title description now saveOk
    by_cases ht : pyStrip title = ""
    · simpa [add_task, ht] using h
    · cases saveOk with
      | true =>
        intro t htm
        rw [show (add_task s title description now true).store.tasks
            = s.tasks ++ [⟨s.next_id, pyStrip title, pyStrip description,
                false, now, none⟩] by simp [add_task, ht, save_tasks]] at htm
        rcases List.mem_append.mp htm with h1 | h1
        · exact h t h1
        · simp at h1
          simp [h1]
      | false =>
        intro t htm
        rw [show (add_task s title description now false).store.tasks
            = s.tasks by
              cases s with
              | mk tasks next_id => simp [add_task, ht, save_tasks, List.dropLast_concat]] at htm
        exact h t htm
  · -- update_task
    intro task_id newTitle newDescription saveOk
    cases hf : find_task_by_id s task_id with
    | none => simpa [update_task, hf] using h
    | some tf =>
      by_cases hvt : (match newTitle with | some x => pyStrip x == "" | none => false) = true
      · simpa [update_task, hf, hvt] using h
      · have hst : (update_task s task_id newTitle newDescription saveOk).store.tasks
            = updateFirst (fun t => t.id == task_id)
                (applyUpdates newTitle newDescription) s.tasks := by
          cases saveOk <;> simp [update_task, hf, hvt, save_tasks]
        rw [hst]
        intro t htm
        rcases mem_updateFirst _ _ _ t htm with h1 | ⟨u, hu, h1⟩
        · exact h t h1
        · rw [h1, applyUpdates_completed, applyUpdates_completed_at]
          exact h u hu
  · -- complete_task
    intro task_id now saveOk
    cases hf : find_task_by_id s task_id with
    | none => simpa [complete_task, hf] using h
    | some tf =>
      cases hc : tf.completed with
      | true => simpa [complete_task, hf, hc] using h
      | false =>
        have hst : (complete_task s task_id now saveOk).store.tasks
            = updateFirst (fun t => t.id == task_id) (setCompleted now) s.tasks := by
          cases saveOk <;> simp [complete_task, hf, hc, save_tasks]
        rw [hst]
        intro t htm
        rcases mem_updateFirst _ _ _ t htm with h1 | ⟨u, hu, h1⟩
        · exact h t h1
        · simp [h1, setCompleted]
  · -- uncomplete_task
    intro task_id saveOk
    cases hf : find_task_by_id s task_id with
    | none => simpa [uncomplete_task, hf] using h
    | some tf =>
      cases hc : tf.completed with
      | false => simpa [uncomplete_task, hf, hc] using h
      | true =>
        have hst : (uncomplete_task s task_id saveOk).store.tasks
            = updateFirst (fun t => t.id == task_id) clearCompleted s.tasks := by
          cases saveOk <;> simp [uncomplete_task, hf, hc, save_tasks]
        rw [hst]
        intro t htm
        rcases mem_updateFirst _ _ _ t htm with h1 | ⟨u, hu, h1⟩
        · exact h t h1
        · simp [h1, clearCompleted]
  · -- delete_task
    intro task_id confirm saveOk
    cases hf : find_task_by_id s task_id with
    | none => simpa [delete_task, hf] using h
    | some tf =>
      by_cases hcf : pyLower confirm = "y"
      · have hst : (delete_task s task_id confirm saveOk).store.tasks
            = s.tasks.filter (fun t => ¬(t.id == task_id)) := by
          cases saveOk <;> simp [delete_task, hf, hcf, save_tasks]
        rw [hst]
        intro t htm
        exact h t (List.mem_of_mem_filter htm)
      · simpa [delete_task, hf, hcf] using h

theorem mutations_preserve_completion_invariant_witness :
    ccInv ([⟨1, "a", "", false, "t", none⟩, ⟨2, "b", "", true, "t", some "t2"⟩]
      : List Task) ∧
    ccInv (add_task ⟨[⟨1, "a", "", false, "t", none⟩, ⟨2, "b", "", true, "t", some "t2"⟩], 3⟩
      "c" "d" "t3" true).store.tasks ∧
    ccInv (complete_task ⟨[⟨1, "a", "", false, "t", none⟩, ⟨2, "b", "", true, "t", some "t2"⟩], 3⟩
      1 "t3" true).store.tasks :=
  ⟨by unfold ccInv; decide,
    (mutations_preserve_completion_invariant
      ⟨[⟨1, "a", "", false, "t", none⟩, ⟨2, "b", "", true, "t", some "t2"⟩], 3⟩
      (by unfold ccInv; decide)).1 "c" "d" "t3" true,
    (mutations_preserve_completion_invariant
      ⟨[⟨1, "a", "", false, "t", none⟩, ⟨2, "b", "", true, "t", some "t2"⟩], 3⟩
      (by unfold ccInv; decide)).2.2.1 1 "t3" true⟩

/-! ## C2 -/

theorem add_task_store_cases (s : TodoApp) (title description now : String)
    (saveOk : Bool) :
    (add_task s title description now saveOk).store = s ∨
    ((add_task s title description now saveOk).store.tasks =
        s.tasks ++ [⟨s.next_id, pyStrip title, pyStrip description, false, now, none⟩] ∧
      (add_task s title description now saveOk).store.next_id = s.next_id + 1) := by
  by_cases h : pyStrip title = ""
  · left
    simp [add_task, h]
  · cases saveOk with
    | true =>
      right
      constructor <;> simp [add_task, h, save_tasks]
    | false =>
      left
      cases s with
      | mk tasks next_id => simp [add_task, h, save_tasks, List.dropLast_concat]

theorem addSeq_extends (ops : List AddOp) (s : TodoApp)
    (hb : ∀ t ∈ s.tasks, t.id < s.next_id) :
    ∃ new : List Task,
      (addSeq s ops).tasks = s.tasks ++ new ∧
      new.Pairwise (fun a b => a.id < b.id) ∧
      (∀ t ∈ new, s.next_id ≤ t.id) ∧
      (∀ t ∈ (addSeq s ops).tasks, t.id < (addSeq s ops).next_id) ∧
      s.next_id ≤ (addSeq s ops).next_id := by
  induction ops generalizing s with
  | nil => exact ⟨[], by simp [addSeq], by simp, by simp, hb, le_refl _⟩
  | cons op rest ih =>
    have hrec : addSeq s (op :: rest)
        = addSeq (add_task s op.title op.description op.now op.saveOk).store rest := rfl
    rcases add_task_store_cases s op.title op.description op.now op.saveOk with
      hcase | ⟨htasks, hnid⟩
    · rw [hrec, hcase]
      exact ih s hb
    · have hb1 : ∀ t ∈ (add_task s op.title op.description op.now op.saveOk).store.tasks,
          t.id < (add_task s op.title op.description op.now op.saveOk).store.next_id := by
        rw [htasks, hnid]
        intro t ht
        rcases List.mem_append.mp ht with h1 | h1
        · exact lt_trans (hb t h1) (by omega)
        · rw [List.mem_singleton.mp h1]
          exact lt_add_one s.next_id
      obtain ⟨new1, e1, pw1, lb1, bd1, mono1⟩ :=
        ih (add_task s op.title op.description op.now op.saveOk).store hb1
      rw [htasks] at e1
      rw [hnid] at lb1 mono1
      refine ⟨⟨s.next_id, pyStrip op.title, pyStrip op.description, false, op.now, none⟩ :: new1,
        ?_, ?_, ?_, ?_, ?_⟩
      · rw [hrec, e1, List.append_assoc]
        rfl
      · refine List.Pairwise.cons (fun b hb2 => ?_) pw1
        have := lb1 b hb2
        show s.next_id < b.id
        omega
      · intro t ht
        rcases List.mem_cons.mp ht with h1 | h1
        · rw [h1]
        · have := lb1 t h1
          omega
      · rw [hrec]
        exact bd1
      · rw [hrec]
        omega

/-- C2: starting from any store whose counter strictly exceeds every
present id, any sequence of `add_task` calls with titles that are
non-empty after trimming appends a block of new tasks whose ids are
strictly increasing in the order the calls were made, all strictly above
every pre-existing id; in particular, if the starting ids were unique, all
ids in the resulting store are unique. -/
theorem add_sequence_ids_unique_increasing (s : TodoApp) (ops : List AddOp)
    (htitles : ∀ op ∈ ops, pyStrip op.title ≠ "")
    (hb : ∀ t ∈ s.tasks, t.id < s.next_id) :
    ∃ new : List Task,
      (addSeq s ops).tasks = s.tasks ++ new ∧
      new.Pairwise (fun a b => a.id < b.id) ∧
      (∀ t ∈ s.tasks, ∀ u ∈ new, t.id ≠ u.id) ∧
      ((s.tasks.map Task.id).Nodup → ((addSeq s ops).tasks.map Task.id).Nodup) := by
  obtain ⟨new, e, pw, lb, _bd, _mono⟩ := addSeq_extends ops s hb
  refine ⟨new, e, pw, ?_, ?_⟩
  · intro t ht u hu
    have h1 := hb t ht
    have h2 := lb u hu
    omega
  · intro hnd
    rw [e, List.map_append, List.nodup_append]
    refine ⟨hnd, ?_, ?_⟩
    · show (new.map Task.id).Pairwise (· ≠ ·)
      exact List.pairwise_map.mpr (pw.imp (fun hab => by omega))
    · intro a ha hab
      obtain ⟨t, ht, rfl⟩ := List.mem_map.mp ha
      obtain ⟨u, hu, heq⟩ := List.mem_map.mp hab
      have h1 := hb t ht
      have h2 := lb u hu
      omega

theorem add_sequence_ids_unique_increasing_witness :
    (∀ op ∈ ([⟨"A", "", "t1", true⟩, ⟨"B", "", "t2", true⟩, ⟨"C", "", "t3", true⟩]
        : List AddOp), pyStrip op.title ≠ "") ∧
    (∀ t ∈ ([⟨5, "e", "", false, "t0", none⟩] : List Task), t.id < (6 : Int)) ∧
    (∃ new : List Task,
      (addSeq ⟨[⟨5, "e", "", false, "t0", none⟩], 6⟩
        [⟨"A", "", "t1", true⟩, ⟨"B", "", "t2", true⟩, ⟨"C", "", "t3", true⟩]).tasks
        = [⟨5, "e", "", false, "t0", none⟩] ++ new ∧
      new.Pairwise (fun a b => a.id < b.id) ∧
      (∀ t ∈ ([⟨5, "e", "", false, "t0", none⟩] : List Task), ∀ u ∈ new, t.id ≠ u.id) ∧
      ((([⟨5, "e", "", false, "t0", none⟩] : List Task).map Task.id).Nodup →
        (((addSeq ⟨[⟨5, "e", "", false, "t0", none⟩], 6⟩
            [⟨"A", "", "t1", true⟩, ⟨"B", "", "t2", true⟩, ⟨"C", "", "t3", true⟩]).tasks.map
          Task.id).Nodup))) :=
  ⟨by decide, by decide,
    add_sequence_ids_unique_increasing ⟨[⟨5, "e", "", false, "t0", none⟩], 6⟩
      [⟨"A", "", "t1", true⟩, ⟨"B", "", "t2", true⟩, ⟨"C", "", "t3", true⟩]
      (by decide) (by decide)⟩

end Todo
